import Mathlib

/-!
Verification of the bamboo-agent configuration module
(`plugins/modules/configuration.py`).

The development shallowly embeds the parts of the module the claims are
about:

* `State` — the mutation-tracking key/value store (`State` class), with the
  dictionaries of the Python runtime modelled as association lists and
  Python's order-insensitive dict equality modelled by `stateEq`/`valEq`.
* `retryRun` — the `retry` loop, with the sequence of outcomes of `query()`
  and the successive readings of `time.time()` made explicit.  Clock
  readings are rational numbers; traces of readings used in theorems are
  strictly increasing, since real time strictly advances between calls.
* `uuidR` / `idOf` — the on-disk identity lookup (`BambooAgent.uuid` /
  `BambooAgent.id`), with the two regular-expression searches implemented
  directly over the character lists of the file contents.
* `Agent` / `Server` / controller phases — the `BambooAgent` methods and
  the `BambooAgentController` phases, with the HTTP server modelled as a
  static response table and every issued request recorded in a trace.
  Requests are assumed to succeed with the expected status code (the
  claims under verification all concern runs without transport failures).
* a small heap model (`Heap`, `HState`) making Python object aliasing
  explicit, used for the claims about `deepcopy` semantics of `State.set`.
-/

namespace BambooSpec

/-! ## Association lists (model of Python `dict`) -/

def alookup {α β : Type} [DecidableEq α] (k : α) : List (α × β) → Option β
  | [] => none
  | (k', v) :: t => if k' = k then some v else alookup k t

/-- Python `d[k] = v`: overwrite in place if the key exists, else append. -/
def ainsert {α β : Type} [DecidableEq α] (k : α) (v : β) : List (α × β) → List (α × β)
  | [] => [(k, v)]
  | (k', v') :: t => if k' = k then (k, v) :: t else (k', v') :: ainsert k v t

/-- Python `d.pop(k)`: remove the entry with the given key. -/
def aremove {α β : Type} [DecidableEq α] (k : α) : List (α × β) → List (α × β)
  | [] => []
  | (k', v') :: t => if k' = k then t else (k', v') :: aremove k t

def hasKey {α β : Type} [DecidableEq α] (k : α) (l : List (α × β)) : Bool :=
  (alookup k l).isSome

theorem alookup_append_some {α β : Type} [DecidableEq α] {k : α} {v : β}
    {l₁ l₂ : List (α × β)} (h : alookup k l₁ = some v) :
    alookup k (l₁ ++ l₂) = some v := by
  induction l₁ with
  | nil => simp [alookup] at h
  | cons hd t ih =>
    obtain ⟨k', v'⟩ := hd
    by_cases hk : k' = k
    · simp [alookup, hk] at h ⊢; exact h
    · simp [alookup, hk] at h ⊢; exact ih h

theorem alookup_append_none {α β : Type} [DecidableEq α] {k : α}
    {l₁ l₂ : List (α × β)} (h : alookup k l₁ = none) :
    alookup k (l₁ ++ l₂) = alookup k l₂ := by
  induction l₁ with
  | nil => simp
  | cons hd t ih =>
    obtain ⟨k', v'⟩ := hd
    by_cases hk : k' = k
    · simp [alookup, hk] at h
    · simp [alookup, hk] at h ⊢; exact ih h

theorem alookup_ainsert_self {α β : Type} [DecidableEq α] (k : α) (v : β)
    (l : List (α × β)) : alookup k (ainsert k v l) = some v := by
  induction l with
  | nil => simp [ainsert, alookup]
  | cons hd t ih =>
    obtain ⟨k', v'⟩ := hd
    by_cases hk : k' = k
    · simp [ainsert, hk, alookup]
    · simp [ainsert, hk, alookup, ih]

theorem ainsert_of_hasKey_false {α β : Type} [DecidableEq α] {k : α} (v : β)
    {l : List (α × β)} (h : hasKey k l = false) :
    ainsert k v l = l ++ [(k, v)] := by
  induction l with
  | nil => simp [ainsert]
  | cons hd t ih =>
    obtain ⟨k', v'⟩ := hd
    by_cases hk : k' = k
    · simp [hasKey, alookup, hk] at h
    · simp [hasKey, alookup, hk] at h
      simp [ainsert, hk, ih (by simp [hasKey, h])]

theorem not_fst_eq_of_hasKey_false {α β : Type} [DecidableEq α] {k : α}
    {l : List (α × β)} (h : hasKey k l = false) :
    ∀ kv ∈ l, kv.1 ≠ k := by
  induction l with
  | nil => simp
  | cons hd t ih =>
    obtain ⟨k', v'⟩ := hd
    by_cases hk : k' = k
    · simp [hasKey, alookup, hk] at h
    · simp [hasKey, alookup, hk] at h
      intro kv hkv
      cases List.mem_cons.mp hkv with
      | inl h1 => simp [h1, hk]
      | inr h2 => exact ih (by simp [hasKey, h]) kv h2

/-! ## Values stored in the tracked state

The `State` instance of the module only ever stores booleans
(`"authenticated"`, `"deleted"`), `None` or flat dictionaries: the agent
info record (string keys, primitive values) and the assignment map
(integer keys, string values).  `Val` covers exactly these shapes. -/

inductive Prim : Type where
  | pNull : Prim
  | pBool : Bool → Prim
  | pNat : Nat → Prim
  | pStr : String → Prim
  deriving DecidableEq, Repr

inductive Key : Type where
  | ks : String → Key
  | kn : Nat → Key
  deriving DecidableEq, Repr

inductive Val : Type where
  | prim : Prim → Val
  | dict : List (Key × Prim) → Val
  deriving DecidableEq, Repr

/-- Python `==` on two flat dictionaries: order-insensitive, lookup-based. -/
def adictEq (d₁ d₂ : List (Key × Prim)) : Bool :=
  d₁.all (fun kv => decide (alookup kv.1 d₂ = alookup kv.1 d₁)) &&
  d₂.all (fun kv => decide (alookup kv.1 d₁ = alookup kv.1 d₂))

/-- Python `==` on stored values. -/
def valEq : Val → Val → Bool
  | .prim p, .prim q => decide (p = q)
  | .dict d₁, .dict d₂ => adictEq d₁ d₂
  | _, _ => false

def optValEq : Option Val → Option Val → Bool
  | some v₁, some v₂ => valEq v₁ v₂
  | none, none => true
  | _, _ => false

/-- Python `==` on the outer state dictionaries. -/
def stateEq (s₁ s₂ : List (String × Val)) : Bool :=
  s₁.all (fun kv => optValEq (alookup kv.1 s₂) (alookup kv.1 s₁)) &&
  s₂.all (fun kv => optValEq (alookup kv.1 s₁) (alookup kv.1 s₂))

theorem adictEq_refl (d : List (Key × Prim)) : adictEq d d = true := by
  simp [adictEq, List.all_eq_true]

theorem valEq_refl (v : Val) : valEq v v = true := by
  cases v with
  | prim p => simp [valEq]
  | dict d => simp [valEq, adictEq_refl]

theorem optValEq_refl (v : Option Val) : optValEq v v = true := by
  cases v with
  | none => rfl
  | some v => simp [optValEq, valEq_refl]

theorem stateEq_refl (s : List (String × Val)) : stateEq s s = true := by
  simp [stateEq, List.all_eq_true, optValEq_refl]

/-! ## The `State` class -/

structure State : Type where
  initial : List (String × Val)
  current : List (String × Val)
  deriving DecidableEq, Repr

namespace State

/-- `State(**initial)`: `current = deepcopy(initial)`; in the pure model a
deep copy has the same content. -/
def init (entries : List (String × Val)) : State := ⟨entries, entries⟩

/-- `changed` property: `self.current != self.initial` (Python dict
inequality, order-insensitive structural comparison). -/
def changed (s : State) : Bool := !stateEq s.current s.initial

/-- `set(key, value)`: record into `initial` only when the key is absent
there; always write `current`. -/
def set (s : State) (k : String) (v : Val) : State :=
  { initial := if hasKey k s.initial then s.initial else s.initial ++ [(k, v)]
    current := ainsert k v s.current }

/-- The materializing part of `__getitem__`: if the key is absent from
`current`, `set(key, dict())`. -/
def getMat (s : State) (k : String) : State :=
  if hasKey k s.current then s else s.set k (.dict [])

/-- `__getitem__` result: the value stored in `current` after
materialization. -/
def get (s : State) (k : String) : Val :=
  (alookup k (s.getMat k).current).getD (.dict [])

/-- In-place `state[k][key] = p` (the `state_update` lambdas of `enable`,
`disable`, `set_name` and `add_assignment`).  Mutates only the object held
in `current`; `initial` holds a deep copy made by `set`, so it is not
affected.  Python raises if the stored value is not a dictionary; the runs
modelled here never reach that case, so the non-dict branch is the
identity. -/
def curDictSet (s : State) (k : String) (key : Key) (p : Prim) : State :=
  let s' := s.getMat k
  { s' with
    current :=
      match alookup k s'.current with
      | some (.dict d) => ainsert k (.dict (ainsert key p d)) s'.current
      | _ => s'.current }

/-- In-place `state[k].pop(key)` (the `state_update` lambda of
`remove_assignment`). -/
def curDictPop (s : State) (k : String) (key : Key) : State :=
  let s' := s.getMat k
  { s' with
    current :=
      match alookup k s'.current with
      | some (.dict d) => ainsert k (.dict (aremove key d)) s'.current
      | _ => s'.current }

end State

/-- The complete repertoire of operations performed on the `State` instance
during one module run. -/
inductive StateOp : Type where
  | set : String → Val → StateOp
  | getMat : String → StateOp
  | curDictSet : String → Key → Prim → StateOp
  | curDictPop : String → Key → StateOp
  deriving DecidableEq, Repr

def applyOp (s : State) : StateOp → State
  | .set k v => s.set k v
  | .getMat k => s.getMat k
  | .curDictSet k key p => s.curDictSet k key p
  | .curDictPop k key => s.curDictPop k key

def applyOps (s : State) : List StateOp → State
  | [] => s
  | op :: ops => applyOps (applyOp s op) ops

/-! ## The error hierarchy and the `retry` loop

`retry(query, timeout, interval)` catches only
`SelfRecoverableBambooAgentError` (whose concrete subclasses are
`AgentBusy` and `MissingUuid`); every other exception propagates.  The
loop is embedded with the successive outcomes of `query()` and the
successive readings of `time.time()` given explicitly as lists.  Times
are rationals (modelling the float seconds of `time.time()`). -/

inductive BErr : Type where
  | agentBusy : BErr
  | missingUuid : String → BErr
  | serverCommunicationError : BErr
  | assignmentNotFound : String → String → BErr
  deriving DecidableEq, Repr

/-- Which exception classes derive `SelfRecoverableBambooAgentError`. -/
def BErr.isSelfRecoverable : BErr → Bool
  | .agentBusy => true
  | .missingUuid _ => true
  | .serverCommunicationError => false
  | .assignmentNotFound _ _ => false

/-- One invocation of `query()` either returns a value or raises. -/
inductive Outcome (α : Type) : Type where
  | ok : α → Outcome α
  | raise : BErr → Outcome α
  deriving DecidableEq, Repr

/-- Result of the retry loop.  `attempts` counts how many times `query()`
was invoked; `sleeps` lists the executed `time.sleep(interval)` calls in
order.  `exhausted` means the supplied outcome/clock trace ended while the
loop would have continued. -/
inductive RetryResult (α : Type) : Type where
  | ok : α → Nat → List ℚ → RetryResult α
  | timeoutError : Nat → List ℚ → RetryResult α
  | fatal : BErr → Nat → List ℚ → RetryResult α
  | exhausted : RetryResult α
  deriving DecidableEq, Repr

/-- `timeout is not None and time.time() > start + timeout`. -/
def timeoutExceeded (timeout : Option ℚ) (start t : ℚ) : Bool :=
  match timeout with
  | none => false
  | some d => decide (start + d < t)

def retryGo {α : Type} (timeout : Option ℚ) (interval : ℚ) (start : ℚ) :
    List (Outcome α) → List ℚ → Nat → List ℚ → RetryResult α
  | [], _, _, _ => .exhausted
  | o :: os, clock, attempts, sleeps =>
    match o with
    | .ok a => .ok a (attempts + 1) sleeps
    | .raise e =>
      if e.isSelfRecoverable then
        match clock with
        | [] => .exhausted
        | t :: ts =>
          if timeoutExceeded timeout start t then .timeoutError (attempts + 1) sleeps
          else retryGo timeout interval start os ts (attempts + 1) (sleeps ++ [interval])
      else .fatal e (attempts + 1) sleeps

/-- `retry(query, timeout, interval)`.  The head of `clock` is the reading
taken by `start = time.time()`; the tail holds the readings of the
`time.time() > start + timeout` checks. -/
def retryRun {α : Type} (timeout : Option ℚ) (interval : ℚ)
    (outcomes : List (Outcome α)) (clock : List ℚ) : RetryResult α :=
  match clock with
  | [] => .exhausted
  | t₀ :: ts => retryGo timeout interval t₀ outcomes ts 0 []

/-! ## On-disk identity lookup (`BambooAgent.uuid` / `BambooAgent.id`)

The two files under the agent home directory are modelled by their
(optional) textual contents.  The three `re.search` patterns of the
source are implemented directly: each is a literal, followed by a greedy
nonempty character-class run, followed by a literal (or end-of-string).
Because the closing literal starts with a character outside the class,
the greedy maximal run is the unique candidate, so no backtracking is
needed. -/

structure Fs : Type where
  config : Option String
  temp : Option String
  deriving DecidableEq, Repr

/-- The class `[A-z0-9-]` (codepoints 65–122, digits, dash). -/
def isUuidChar (c : Char) : Bool :=
  (65 ≤ c.toNat && c.toNat ≤ 122) || (48 ≤ c.toNat && c.toNat ≤ 57) || c = '-'

def isDigitChar (c : Char) : Bool :=
  48 ≤ c.toNat && c.toNat ≤ 57

def listStartsWith : List Char → List Char → Bool
  | [], _ => true
  | _ :: _, [] => false
  | p :: ps, c :: cs => p = c && listStartsWith ps cs

/-- Try to match `pre` + nonempty greedy `cls`-run + `post` at the head of
`cs`; return the run. -/
def matchRunAt (pre : List Char) (cls : Char → Bool) (post : List Char)
    (cs : List Char) : Option (List Char) :=
  if listStartsWith pre cs then
    let rest := cs.drop pre.length
    let run := rest.takeWhile cls
    if run.isEmpty then none
    else if listStartsWith post (rest.drop run.length) then some run else none
  else none

/-- Leftmost-match search: try every start position left to right. -/
def searchList {α : Type} (f : List Char → Option α) : List Char → Option α
  | [] => f []
  | c :: cs =>
    match f (c :: cs) with
    | some r => some r
    | none => searchList f cs

/-- `re.search("<agentUuid>([A-z0-9-]+)</agentUuid>", text)`. -/
def searchConfigUuid (text : String) : Option String :=
  (searchList (matchRunAt "<agentUuid>".toList isUuidChar "</agentUuid>".toList)
    text.toList).map List.asString

/-- `$` with no MULTILINE flag: end of string, or just before a final
newline. -/
def matchTempAt (cs : List Char) : Option (List Char) :=
  if listStartsWith "agentUuid=".toList cs then
    let rest := cs.drop "agentUuid=".toList.length
    let run := rest.takeWhile isUuidChar
    if run.isEmpty then none
    else
      match rest.drop run.length with
      | [] => some run
      | ['\n'] => some run
      | _ => none
  else none

/-- `re.search("agentUuid=([A-z0-9-]+)$", text)`. -/
def searchTempUuid (text : String) : Option String :=
  (searchList matchTempAt text.toList).map List.asString

/-- `re.search("<id>([0-9]+)</id>", text)`, with the digits converted by
`int(...)`. -/
def searchConfigId (text : String) : Option Nat :=
  (searchList (matchRunAt "<id>".toList isDigitChar "</id>".toList)
    text.toList).map
    (fun run => run.foldl (fun n c => n * 10 + (c.toNat - 48)) 0)

deriving instance DecidableEq for Except

inductive IdErr : Type where
  /-- `re.search(...)` returned `None` and `.group(1)` raised
  `AttributeError`. -/
  | attrError : IdErr
  deriving DecidableEq, Repr

/-- `BambooAgent.uuid()`: the finalized config file is consulted first;
only when it does not exist is the temporary properties file read. -/
def uuidR (fs : Fs) : Except IdErr (Option String) :=
  match fs.config with
  | some text =>
    match searchConfigUuid text with
    | some u => .ok (some u)
    | none => .error .attrError
  | none =>
    match fs.temp with
    | some text =>
      match searchTempUuid text with
      | some u => .ok (some u)
      | none => .error .attrError
    | none => .ok none

/-- `BambooAgent.id()`: config file only; a missing match yields `None`
(no exception). -/
def idOf (fs : Fs) : Option Nat :=
  match fs.config with
  | some text => searchConfigId text
  | none => none

/-! ## The agent and the server

`BambooAgent` is embedded with the remote server as a static response
table and with every issued HTTP request recorded in an ordered trace.
Requests succeed with the expected status code (the claims all concern
runs without transport failures), so `self.request(...)` never raises
`ServerCommunicationError` in this model.  The two `lru_cache`s on
`info()` and `assignments()` are explicit `Option` fields; because the
cached Python return value is the very dictionary object held in
`state.current`, the in-place `state_update` mutations of
`enable`/`disable`/`set_name`/`add_assignment`/`remove_assignment` are
visible through the cache, which the `…Op` functions mirror. -/

structure AgentInfo : Type where
  id : Nat
  name : String
  enabled : Bool
  busy : Bool
  deriving DecidableEq, Repr

/-- The static remote state: pending-authentication uuids, the agent
list, and the assignment list returned for this agent. -/
structure Server : Type where
  pending : List String
  agents : List AgentInfo
  assignmentsResp : List (Nat × String)
  deriving DecidableEq, Repr

inductive Req : Type where
  | getPending : Req
  | putAuth : String → Req
  | getAgents : Req
  | postEnable : Option Nat → Req
  | postDisable : Option Nat → Req
  | postSetName : Option Nat → String → Req
  | postDelete : Option Nat → Req
  | getAssignments : Option Nat → Req
  | postAddAssignment : String → Nat → Req
  | deleteRemoveAssignment : String → Nat → Req
  deriving DecidableEq, Repr

/-- Whether the request uses a mutating HTTP method (PUT/POST/DELETE). -/
def Req.isMutating : Req → Bool
  | .getPending => false
  | .getAgents => false
  | .getAssignments _ => false
  | _ => true

/-- Errors surfaced by the modelled runs.  `attrError` is the
`AttributeError` from `uuid()` on a malformed config file; `missingUuid`
is raised by `authenticate()`; `typeError` is the `TypeError` from
subscripting `info()` when it returned `None`; `timeoutError` is raised
by `retry`; `busyBlocked` stands for the busy-polling loop never
returning against a server that stays busy (it times out when a
`busy_timeout` is configured and polls forever otherwise). -/
inductive RunErr : Type where
  | attrError : RunErr
  | missingUuid : RunErr
  | typeError : RunErr
  | timeoutError : RunErr
  | busyBlocked : RunErr
  deriving DecidableEq, Repr

def infoVal : Option AgentInfo → Val
  | none => .prim .pNull
  | some i =>
    .dict [(.ks "id", .pNat i.id), (.ks "name", .pStr i.name),
           (.ks "enabled", .pBool i.enabled), (.ks "busy", .pBool i.busy)]

def assignVal (m : List (Nat × String)) : Val :=
  .dict (m.map fun p => (.kn p.1, .pStr p.2))

/-- Python `==` on the assignment dictionaries (order-insensitive). -/
def natDictEq (d₁ d₂ : List (Nat × String)) : Bool :=
  d₁.all (fun kv => decide (alookup kv.1 d₂ = alookup kv.1 d₁)) &&
  d₂.all (fun kv => decide (alookup kv.1 d₁ = alookup kv.1 d₂))

structure Agent : Type where
  fs : Fs
  checkMode : Bool
  state : State
  infoCache : Option (Option AgentInfo)
  assignCache : Option (List (Nat × String))
  trace : List Req
  deriving DecidableEq, Repr

namespace Agent

/-- `BambooAgent.__init__`: `State(deleted=False)`, both caches cold, no
request issued yet. -/
def init (fs : Fs) (checkMode : Bool) : Agent :=
  { fs := fs, checkMode := checkMode
    state := State.init [("deleted", .prim (.pBool false))]
    infoCache := none, assignCache := none, trace := [] }

/-- `change(request, state_update)`: skip the HTTP call in check mode,
always apply the state update (every caller passes one). -/
def change (a : Agent) (req : Req) (upd : State → State) : Agent :=
  { a with
    trace := if a.checkMode then a.trace else a.trace ++ [req]
    state := upd a.state }

/-- `info()`: `lru_cache` over `_update_state("info")`; on a cold cache,
GET the agent list, select the record with matching id (`None` when the
local id is `None` or no record matches), record it into the state. -/
def infoM (a : Agent) (srv : Server) : Option AgentInfo × Agent :=
  match a.infoCache with
  | some r => (r, a)
  | none =>
    let r := match idOf a.fs with
      | some aid => srv.agents.find? (fun ag => ag.id = aid)
      | none => none
    (r, { a with
            trace := a.trace ++ [Req.getAgents]
            state := a.state.set "info" (infoVal r)
            infoCache := some r })

/-- `available()`: `None` id short-circuits to `False` with no request;
otherwise clear the info cache and refetch. -/
def availableM (a : Agent) (srv : Server) : Bool × Agent :=
  match idOf a.fs with
  | none => (false, a)
  | some _ =>
    let p := infoM { a with infoCache := none } srv
    (p.1.isSome, p.2)

/-- `authenticated()` (wrapped by `_update_state("authenticated")`, which
records the result after the body returns): `None` uuid ⇒ `False` with no
request; else GET the pending list; pending ⇒ `False`; not pending ⇒
`available()`. -/
def authenticatedM (a : Agent) (srv : Server) : Except RunErr (Bool × Agent) :=
  match uuidR a.fs with
  | .error _ => .error .attrError
  | .ok none =>
    .ok (false, { a with state := a.state.set "authenticated" (.prim (.pBool false)) })
  | .ok (some u) =>
    let a₁ := { a with trace := a.trace ++ [Req.getPending] }
    if srv.pending.contains u then
      .ok (false, { a₁ with state := a₁.state.set "authenticated" (.prim (.pBool false)) })
    else
      let p := availableM a₁ srv
      .ok (p.1, { p.2 with state := p.2.state.set "authenticated" (.prim (.pBool p.1)) })

/-- `authenticate()`: `MissingUuid` when no uuid resolves; otherwise a PUT
through `change` recording `authenticated=True`. -/
def authenticateM (a : Agent) : Except RunErr Agent :=
  match uuidR a.fs with
  | .error _ => .error .attrError
  | .ok none => .error .missingUuid
  | .ok (some u) =>
    .ok (a.change (.putAuth u) (fun st => st.set "authenticated" (.prim (.pBool true))))

/-- `enabled()`: `self.info()["enabled"]`; subscripting `None` raises. -/
def enabledM (a : Agent) (srv : Server) : Except RunErr (Bool × Agent) :=
  let p := infoM a srv
  match p.1 with
  | some i => .ok (i.enabled, p.2)
  | none => .error .typeError

/-- `name()`: `self.info()["name"]`. -/
def nameM (a : Agent) (srv : Server) : Except RunErr (String × Agent) :=
  let p := infoM a srv
  match p.1 with
  | some i => .ok (i.name, p.2)
  | none => .error .typeError

/-- `busy()`: clear the info cache, then `self.info()["busy"]`. -/
def busyM (a : Agent) (srv : Server) : Except RunErr (Bool × Agent) :=
  let p := infoM { a with infoCache := none } srv
  match p.1 with
  | some i => .ok (i.busy, p.2)
  | none => .error .typeError

/-- `enable()`: POST through `change`, update `state["info"]["enabled"]`
in place (also visible through the `info` cache, which aliases the state
dictionary). -/
def enableOp (a : Agent) : Agent :=
  let a₁ := a.change (.postEnable (idOf a.fs))
    (fun st => st.curDictSet "info" (.ks "enabled") (.pBool true))
  { a₁ with infoCache := a₁.infoCache.map (Option.map fun i => { i with enabled := true }) }

/-- `disable()`. -/
def disableOp (a : Agent) : Agent :=
  let a₁ := a.change (.postDisable (idOf a.fs))
    (fun st => st.curDictSet "info" (.ks "enabled") (.pBool false))
  { a₁ with infoCache := a₁.infoCache.map (Option.map fun i => { i with enabled := false }) }

/-- `set_name(name)`. -/
def setNameOp (a : Agent) (n : String) : Agent :=
  let a₁ := a.change (.postSetName (idOf a.fs) n)
    (fun st => st.curDictSet "info" (.ks "name") (.pStr n))
  { a₁ with infoCache := a₁.infoCache.map (Option.map fun i => { i with name := n }) }

/-- `delete()`: POST through `change`, record `deleted=True`. -/
def deleteOp (a : Agent) : Agent :=
  a.change (.postDelete (idOf a.fs)) (fun st => st.set "deleted" (.prim (.pBool true)))

/-- `assignments()`: `lru_cache` over `_update_state("assignments")`; on a
cold cache, GET the assignment list and record the id→type mapping. -/
def assignmentsM (a : Agent) (srv : Server) : List (Nat × String) × Agent :=
  match a.assignCache with
  | some m => (m, a)
  | none =>
    let m := srv.assignmentsResp
    (m, { a with
            trace := a.trace ++ [Req.getAssignments (idOf a.fs)]
            state := a.state.set "assignments" (assignVal m)
            assignCache := some m })

/-- `add_assignment(etype, eid)`: POST through `change`, then
`state["assignments"][eid] = etype` in place (aliased by the
`assignments` cache). -/
def addAssignmentOp (a : Agent) (etype : String) (eid : Nat) : Agent :=
  let a₁ := a.change (.postAddAssignment etype eid)
    (fun st => st.curDictSet "assignments" (.kn eid) (.pStr etype))
  { a₁ with assignCache := a₁.assignCache.map (ainsert eid etype) }

/-- `remove_assignment(etype, eid)`: DELETE through `change`, then
`state["assignments"].pop(eid)`. -/
def removeAssignmentOp (a : Agent) (etype : String) (eid : Nat) : Agent :=
  let a₁ := a.change (.deleteRemoveAssignment etype eid)
    (fun st => st.curDictPop "assignments" (.kn eid))
  { a₁ with assignCache := a₁.assignCache.map (aremove eid) }

end Agent

/-! ## The controller phases (`BambooAgentController`) -/

namespace Ctl

/-- `BambooAgentController.authenticate()`: skip when already
authenticated; otherwise `authenticate()` and, outside check mode,
`retry(available, authentication_timeout, 1.0)`.  Against the static
server of this model `available()` is a constant, so the retry loop
collapses: it returns right away when the agent is available and
otherwise keeps failing until the timeout escalates to `TimeoutError`. -/
def authenticatePhase (a : Agent) (srv : Server) : Except RunErr Agent := do
  let p ← a.authenticatedM srv
  if p.1 then .ok p.2
  else
    let a₂ ← p.2.authenticateM
    if a₂.checkMode then .ok a₂
    else
      let q := a₂.availableM srv
      if q.1 then .ok q.2 else .error .timeoutError

/-- `set_enabled(enabled)`: no desired value ⇒ no-op (and no read);
otherwise read `enabled()` and mutate only on difference. -/
def setEnabledPhase (desired : Option Bool) (a : Agent) (srv : Server) :
    Except RunErr Agent :=
  match desired with
  | none => .ok a
  | some e => do
    let p ← a.enabledM srv
    if e = p.1 then .ok p.2
    else .ok (if e then p.2.enableOp else p.2.disableOp)

/-- `set_name(name)`. -/
def setNamePhase (desired : Option String) (a : Agent) (srv : Server) :
    Except RunErr Agent :=
  match desired with
  | none => .ok a
  | some n => do
    let p ← a.nameM srv
    if p.1 = n then .ok p.2 else .ok (p.2.setNameOp n)

/-- `update_assignments(assignments)` with the `all(...)` generator
consumption of the source embedded exactly: `all` stops at the first
falsy element, `add_assignment`/`remove_assignment` return `None`
(falsy), so at most the first missing addition and at most the first
stale removal are executed. -/
def updateAssignmentsPhase (desired : Option (List (Nat × String)))
    (a : Agent) (srv : Server) : Agent :=
  match desired with
  | none => a
  | some want =>
    let p := a.assignmentsM srv
    let cur := p.1
    if natDictEq cur want then p.2
    else
      let a₂ := match want.filter (fun kv => !hasKey kv.1 cur) with
        | [] => p.2
        | (eid, et) :: _ => p.2.addAssignmentOp et eid
      match cur.filter (fun kv => !hasKey kv.1 want) with
      | [] => a₂
      | (eid, et) :: _ => a₂.removeAssignmentOp et eid

/-- `block_while_busy()`: skipped in check mode; otherwise
`retry(block, busy_timeout, busy_polling_interval)`.  Against the static
server `busy()` is a constant: not busy ⇒ the loop returns after one
observation; busy ⇒ the loop can never return (`busyBlocked`). -/
def blockPhase (flag : Bool) (a : Agent) (srv : Server) : Except RunErr Agent :=
  if flag then
    if a.checkMode then .ok a
    else do
      let p ← a.busyM srv
      if p.1 then .error .busyBlocked else .ok p.2
  else .ok a

/-- The phase sequence of `main()` after argument parsing, with the
desired assignments already resolved. -/
def runController (desiredEnabled : Option Bool) (desiredName : Option String)
    (resolved : Option (List (Nat × String))) (blockBusy : Bool) (del : Bool)
    (a : Agent) (srv : Server) : Except RunErr Agent := do
  let a₁ ← authenticatePhase a srv
  let a₂ ← setEnabledPhase desiredEnabled a₁ srv
  let a₃ ← setNamePhase desiredName a₂ srv
  let a₄ := updateAssignmentsPhase resolved a₃ srv
  let a₅ ← blockPhase blockBusy a₄ srv
  .ok (if del then a₅.deleteOp else a₅)

end Ctl

/-! ## Heap model of `State.set` (Python object aliasing)

The pure `State` model above identifies a value with its content.  To
settle what `deepcopy` does and does not protect, this section makes
aliasing explicit: mutable dictionary objects live on a heap addressed by
naturals, values are primitives or references, and `deepcopy` allocates a
fresh address holding a copy of the referenced content.  `State.set`
deep-copies the value into `initial` (when the key is new) but stores the
caller's reference itself into `current` — `self.current[key] = value`
with no copy. -/

abbrev Addr : Type := Nat

abbrev Cell : Type := List (Key × Prim)

inductive HVal : Type where
  | hprim : Prim → HVal
  | href : Addr → HVal
  deriving DecidableEq, Repr

abbrev Heap : Type := List (Addr × Cell)

/-- Mutate the object at an address (`obj[key] = …` style updates replace
the cell content). -/
def heapSet (h : Heap) (a : Addr) (c : Cell) : Heap :=
  match h with
  | [] => []
  | (a', c') :: t => if a' = a then (a, c) :: heapSet t a c else (a', c') :: heapSet t a c

def freshAddr (h : Heap) : Addr :=
  (h.map Prod.fst).foldr max 0 + 1

/-- `copy.deepcopy`: primitives are immutable; a reference is copied to a
fresh address holding the same content. -/
def deepcopyH (h : Heap) : HVal → HVal × Heap
  | .hprim p => (.hprim p, h)
  | .href a => (.href (freshAddr h), h ++ [(freshAddr h, (alookup a h).getD [])])

/-- Read a value back to its structural content. -/
def deref (h : Heap) : HVal → Val
  | .hprim p => .prim p
  | .href a => .dict ((alookup a h).getD [])

structure HState : Type where
  initial : List (String × HVal)
  current : List (String × HVal)
  deriving DecidableEq, Repr

/-- `State.set(key, value)` over the heap: deep copy into `initial` when
the key is new there; plain reference assignment into `current`. -/
def hset (h : Heap) (s : HState) (k : String) (v : HVal) : HState × Heap :=
  if hasKey k s.initial then ({ s with current := ainsert k v s.current }, h)
  else
    let p := deepcopyH h v
    ({ initial := s.initial ++ [(k, p.1)], current := ainsert k v s.current }, p.2)

theorem alookup_eq_none_of_forall_ne {α β : Type} [DecidableEq α] {k : α}
    {l : List (α × β)} (h : ∀ kv ∈ l, kv.1 ≠ k) : alookup k l = none := by
  induction l with
  | nil => rfl
  | cons hd t ih =>
    obtain ⟨k', v'⟩ := hd
    have hne : k' ≠ k := h (k', v') (by simp)
    simp [alookup, hne]
    exact ih (fun kv hkv => h kv (by simp [hkv]))

theorem le_foldr_max (l : List Nat) : ∀ x ∈ l, x ≤ l.foldr max 0 := by
  induction l with
  | nil => simp
  | cons y t ih =>
    intro x hx
    cases List.mem_cons.mp hx with
    | inl h1 =>
      subst h1
      exact le_max_left _ _
    | inr h2 =>
      exact le_trans (ih x h2) (le_max_right _ _)

theorem freshAddr_lookup_none (h : Heap) : alookup (freshAddr h) h = none := by
  apply alookup_eq_none_of_forall_ne
  intro kv hkv
  have hle : kv.1 ≤ (h.map Prod.fst).foldr max 0 :=
    le_foldr_max _ kv.1 (List.mem_map_of_mem Prod.fst hkv)
  intro hc
  rw [hc] at hle
  simp only [freshAddr] at hle
  exact Nat.not_succ_le_self _ hle

theorem heapSet_lookup_ne {h : Heap} {a b : Addr} (c : Cell) (hne : b ≠ a) :
    alookup b (heapSet h a c) = alookup b h := by
  induction h with
  | nil => rfl
  | cons hd t ih =>
    obtain ⟨a', c'⟩ := hd
    by_cases ha : a' = a
    · subst ha
      simp [heapSet, alookup, Ne.symm hne, ih]
    · by_cases hb : a' = b
      · subst hb
        simp [heapSet, hne, alookup]
      · simp [heapSet, ha, alookup, hb, ih]

theorem heapSet_lookup_self {h : Heap} {a : Addr} {c₀ : Cell} (c : Cell)
    (hs : alookup a h = some c₀) : alookup a (heapSet h a c) = some c := by
  induction h with
  | nil => simp [alookup] at hs
  | cons hd t ih =>
    obtain ⟨a', c'⟩ := hd
    by_cases ha : a' = a
    · simp [heapSet, ha, alookup]
    · simp [alookup, ha] at hs
      simp [heapSet, ha, alookup, ih hs]

/-! ## Claim theorems -/

/-- C3: calling `retry(op, timeout=0, interval=0)` where `op` raises a
self-recoverable error on every invocation raises `TimeoutError` after
exactly one attempt (the operation is invoked exactly once, no sleep is
executed), because with a zero timeout the first failure is already past
the deadline.  The clock readings are strictly increasing — real time
strictly advances between the `start = time.time()` reading and the
deadline check. -/
theorem retry_zero_timeout_single_attempt {α : Type}
    (outcomes : List (Outcome α)) (t₀ t₁ : ℚ) (ts : List ℚ)
    (hall : ∀ o ∈ outcomes, ∃ e, o = .raise e ∧ e.isSelfRecoverable = true)
    (hne : outcomes ≠ [])
    (hmono : t₀ < t₁) :
    retryRun (some 0) 0 outcomes (t₀ :: t₁ :: ts) = .timeoutError 1 [] := by
  match outcomes with
  | [] => exact absurd rfl hne
  | o :: os =>
    obtain ⟨e, he, hrec⟩ := hall o (by simp)
    subst he
    have ht : t₀ + 0 < t₁ := by simpa using hmono
    simp [retryRun, retryGo, hrec, timeoutExceeded, ht]
    intro hle
    exact absurd hmono (not_lt.mpr hle)

/-- C3 witness. -/
theorem retry_zero_timeout_single_attempt_witness :
    retryRun (some 0) 0 [Outcome.raise (α := Unit) .agentBusy, .raise .agentBusy]
      [0, 1, 2] = .timeoutError 1 [] := by
  apply retry_zero_timeout_single_attempt
  · intro o ho
    refine ⟨.agentBusy, ?_, rfl⟩
    cases List.mem_cons.mp ho with
    | inl h1 => exact h1
    | inr h2 => simpa using h2
  · simp
  · norm_num

/-- C6: if, at any point of the loop (any accumulated attempt count and
sleep trace), `query()` raises an error that is not self-recoverable
(e.g. `ServerCommunicationError` or `AssignmentNotFound`), `retry`
propagates it at once: the result is that error, the operation is not
invoked again, and no additional sleep is executed. -/
theorem retry_fatal_propagates {α : Type}
    (e : BErr) (hfatal : e.isSelfRecoverable = false)
    (timeout : Option ℚ) (interval start : ℚ)
    (outcomes : List (Outcome α)) (clock : List ℚ)
    (attempts : Nat) (sleeps : List ℚ) :
    retryGo timeout interval start (.raise e :: outcomes) clock attempts sleeps =
      .fatal e (attempts + 1) sleeps := by
  simp [retryGo, hfatal]

/-- C6 witness. -/
theorem retry_fatal_propagates_witness :
    retryGo (α := Unit) (some 10) 1 0
      [.raise .serverCommunicationError, .raise .agentBusy] [5, 6] 3 [1, 1, 1] =
      .fatal .serverCommunicationError 4 [1, 1, 1] :=
  retry_fatal_propagates .serverCommunicationError rfl _ _ _ _ _ _ _

/-- C8: when both identity files exist — the temporary properties file
matching `agentUuid=A` and the finalized config file matching
`<agentUuid>B</agentUuid>` — `uuid()` returns the config-file value `B`,
never the temp-file value `A`: the config file is consulted first and its
match is returned unconditionally. -/
theorem uuid_config_precedence
    (fs : Fs) (ct tt A B : String)
    (hc : fs.config = some ct) (ht : fs.temp = some tt)
    (hcb : searchConfigUuid ct = some B)
    (hta : searchTempUuid tt = some A) :
    uuidR fs = .ok (some B) := by
  simp [uuidR, hc, hcb]

/-- C8 witness. -/
theorem uuid_config_precedence_witness :
    uuidR ⟨some "<id>7</id><agentUuid>bbb-1</agentUuid>", some "agentUuid=aaa-2"⟩ =
      .ok (some "bbb-1") :=
  uuid_config_precedence _ _ _ "aaa-2" "bbb-1" rfl rfl (by decide) (by decide)

/-- C9: in check mode every mutation issued through `change()` —
authenticate, enable, disable, set_name, add_assignment,
remove_assignment, delete — performs no HTTP request (the trace is
unchanged) but applies its tracked-state update exactly as the same
operation does in normal mode, so the `changed` flag and before/after
diff reflect the hypothetical outcome. -/
theorem check_mode_no_request_same_state
    (a : Agent) (hc : a.checkMode = true) (n et u : String) (eid : Nat)
    (hu : uuidR a.fs = .ok (some u)) :
    (a.enableOp.trace = a.trace ∧
      a.enableOp.state = ({ a with checkMode := false }).enableOp.state) ∧
    (a.disableOp.trace = a.trace ∧
      a.disableOp.state = ({ a with checkMode := false }).disableOp.state) ∧
    ((a.setNameOp n).trace = a.trace ∧
      (a.setNameOp n).state = (({ a with checkMode := false }).setNameOp n).state) ∧
    ((a.addAssignmentOp et eid).trace = a.trace ∧
      (a.addAssignmentOp et eid).state =
        (({ a with checkMode := false }).addAssignmentOp et eid).state) ∧
    ((a.removeAssignmentOp et eid).trace = a.trace ∧
      (a.removeAssignmentOp et eid).state =
        (({ a with checkMode := false }).removeAssignmentOp et eid).state) ∧
    (a.deleteOp.trace = a.trace ∧
      a.deleteOp.state = ({ a with checkMode := false }).deleteOp.state) ∧
    (∃ a₁ a₂, a.authenticateM = .ok a₁ ∧
      ({ a with checkMode := false }).authenticateM = .ok a₂ ∧
      a₁.trace = a.trace ∧ a₁.state = a₂.state) := by
  refine ⟨⟨?_, ?_⟩, ⟨?_, ?_⟩, ⟨?_, ?_⟩, ⟨?_, ?_⟩, ⟨?_, ?_⟩, ⟨?_, ?_⟩, ?_⟩ <;>
    simp [Agent.enableOp, Agent.disableOp, Agent.setNameOp, Agent.addAssignmentOp,
      Agent.removeAssignmentOp, Agent.deleteOp, Agent.authenticateM, Agent.change, hc, hu]

/-- C9 witness. -/
theorem check_mode_no_request_same_state_witness :
    (Agent.init ⟨some "<id>7</id><agentUuid>bbb-1</agentUuid>", none⟩ true).checkMode = true ∧
    uuidR (Agent.init ⟨some "<id>7</id><agentUuid>bbb-1</agentUuid>", none⟩ true).fs =
      .ok (some "bbb-1") ∧
    (Agent.init ⟨some "<id>7</id><agentUuid>bbb-1</agentUuid>", none⟩ true).deleteOp.trace =
      (Agent.init ⟨some "<id>7</id><agentUuid>bbb-1</agentUuid>", none⟩ true).trace :=
  ⟨rfl, by decide,
    (check_mode_no_request_same_state _ rfl "n" "PROJECT" "bbb-1" 3 (by decide)).2.2.2.2.2.1.1⟩

/-- C7: `authenticated()` returns `False` when `uuid()` is `None`, issuing
no HTTP request; when a uuid exists and it appears in the
pending-authentication list it returns `False`; when a uuid exists and is
not pending it returns the result of the availability check
`available()`. -/
theorem authenticated_cases (a : Agent) (srv : Server) :
    (uuidR a.fs = .ok none →
      a.authenticatedM srv =
        .ok (false, { a with
          state := a.state.set "authenticated" (.prim (.pBool false)) })) ∧
    (∀ u, uuidR a.fs = .ok (some u) → srv.pending.contains u = true →
      a.authenticatedM srv =
        .ok (false, { a with
          trace := a.trace ++ [Req.getPending]
          state := a.state.set "authenticated" (.prim (.pBool false)) })) ∧
    (∀ u, uuidR a.fs = .ok (some u) → srv.pending.contains u = false →
      ∃ a', a.authenticatedM srv =
        .ok ((Agent.availableM { a with trace := a.trace ++ [Req.getPending] } srv).1, a')) := by
  refine ⟨?_, ?_, ?_⟩
  · intro h
    simp [Agent.authenticatedM, h]
  · intro u h hpend
    have hp' : u ∈ srv.pending := by simpa using hpend
    simp [Agent.authenticatedM, h, hp']
  · intro u h hpend
    have hp' : u ∉ srv.pending := by simpa using hpend
    have hstep : a.authenticatedM srv =
        .ok ((Agent.availableM { a with trace := a.trace ++ [Req.getPending] } srv).1,
          { (Agent.availableM { a with trace := a.trace ++ [Req.getPending] } srv).2 with
            state := (Agent.availableM { a with trace := a.trace ++ [Req.getPending] } srv).2.state.set
              "authenticated"
              (.prim (.pBool (Agent.availableM { a with trace := a.trace ++ [Req.getPending] } srv).1)) }) := by
      simp [Agent.authenticatedM, h, hp']
    exact ⟨_, hstep⟩

/-- C7 witness. -/
theorem authenticated_cases_witness :
    (Agent.init ⟨none, none⟩ false).authenticatedM ⟨[], [], []⟩ =
      .ok (false, { Agent.init ⟨none, none⟩ false with
        state := (Agent.init ⟨none, none⟩ false).state.set "authenticated"
          (.prim (.pBool false)) }) :=
  (authenticated_cases (Agent.init ⟨none, none⟩ false) ⟨[], [], []⟩).1 rfl

/-! ### Supporting lemmas for the `State` invariants -/

theorem hasKey_of_mem {α β : Type} [DecidableEq α] {kv : α × β}
    {l : List (α × β)} (h : kv ∈ l) : hasKey kv.1 l = true := by
  induction l with
  | nil => cases h
  | cons hd t ih =>
    obtain ⟨k', v'⟩ := hd
    by_cases hk : k' = kv.1
    · simp [hasKey, alookup, hk]
    · cases List.mem_cons.mp h with
      | inl h1 => rw [h1] at hk; simp at hk
      | inr h2 =>
        have := ih h2
        simp [hasKey, alookup, hk] at this ⊢
        exact this

theorem alookup_append_single_ne {α β : Type} [DecidableEq α] {k' k : α}
    (x : β) (l : List (α × β)) (h : k' ≠ k) :
    alookup k' (l ++ [(k, x)]) = alookup k' l := by
  cases hl : alookup k' l with
  | some v => exact alookup_append_some hl
  | none => rw [alookup_append_none hl]; simp [alookup, Ne.symm h]

theorem all_congr_mem {α : Type} {l : List α} {f g : α → Bool}
    (h : ∀ x ∈ l, f x = g x) : l.all f = l.all g := by
  induction l with
  | nil => rfl
  | cons x t ih =>
    simp only [List.all_cons]
    rw [h x (by simp), ih (fun y hy => h y (by simp [hy]))]

/-- Appending the same fresh entry to both sides leaves the Python dict
comparison of the two state snapshots unchanged. -/
theorem all_optValEq_append {l m : List (String × Val)} {k : String} (x : Val)
    (hl : alookup k l = none) (hm : alookup k m = none) :
    ((l ++ [(k, x)]).all fun kv =>
        optValEq (alookup kv.1 (m ++ [(k, x)])) (alookup kv.1 (l ++ [(k, x)]))) =
      (l.all fun kv => optValEq (alookup kv.1 m) (alookup kv.1 l)) := by
  rw [List.all_append]
  have hsingle : ([((k : String), x)].all fun kv =>
      optValEq (alookup kv.1 (m ++ [(k, x)])) (alookup kv.1 (l ++ [(k, x)]))) = true := by
    simp [alookup_append_none hl, alookup_append_none hm, alookup, optValEq, valEq_refl]
  rw [hsingle, Bool.and_true]
  apply all_congr_mem
  intro kv hkv
  have hne : kv.1 ≠ k :=
    not_fst_eq_of_hasKey_false (by simp [hasKey, hl]) kv hkv
  rw [alookup_append_single_ne x m hne, alookup_append_single_ne x l hne]

theorem stateEq_append_same {c i : List (String × Val)} {k : String} (x : Val)
    (hc : alookup k c = none) (hi : alookup k i = none) :
    stateEq (c ++ [(k, x)]) (i ++ [(k, x)]) = stateEq c i := by
  unfold stateEq
  rw [all_optValEq_append x hc hi, all_optValEq_append x hi hc]

theorem alookup_none_of_hasKey_false {α β : Type} [DecidableEq α] {k : α}
    {l : List (α × β)} (h : hasKey k l = false) : alookup k l = none := by
  cases hv : alookup k l with
  | none => rfl
  | some v => simp [hasKey, hv] at h

theorem alookup_ainsert_ne {α β : Type} [DecidableEq α] {k k' : α} (v : β)
    (l : List (α × β)) (h : k' ≠ k) :
    alookup k' (ainsert k v l) = alookup k' l := by
  induction l with
  | nil => simp [ainsert, alookup, Ne.symm h]
  | cons hd t ih =>
    obtain ⟨k₀, v₀⟩ := hd
    by_cases hk : k₀ = k
    · subst hk
      simp [ainsert, alookup, Ne.symm h]
    · simp [ainsert, hk, alookup, ih]

theorem hasKey_ainsert {α β : Type} [DecidableEq α] {k k' : α} (v : β)
    {l : List (α × β)} (h : hasKey k' l = true) :
    hasKey k' (ainsert k v l) = true := by
  by_cases hk : k' = k
  · subst hk
    simp [hasKey, alookup_ainsert_self]
  · rw [hasKey, alookup_ainsert_ne v l hk]
    exact h

/-- `State.set` preserves the invariant that every key of `initial` is a
key of `current`. -/
theorem keysSub_set (s : State) (k : String) (v : Val)
    (h : s.initial.all (fun kv => hasKey kv.1 s.current) = true) :
    (s.set k v).initial.all (fun kv => hasKey kv.1 (s.set k v).current) = true := by
  rw [List.all_eq_true]
  intro kv hkv
  have hcur : hasKey kv.1 (ainsert k v s.current) = true := by
    by_cases hk : kv.1 = k
    · rw [hk]; simp [hasKey, alookup_ainsert_self]
    · have hmem : kv ∈ s.initial := by
        by_cases hik : hasKey k s.initial = true
        · simpa [State.set, hik] using hkv
        · simp only [State.set] at hkv
          rw [if_neg hik] at hkv
          cases List.mem_append.mp hkv with
          | inl h1 => exact h1
          | inr h2 =>
            simp at h2
            rw [h2] at hk
            simp at hk
      exact hasKey_ainsert v ((List.all_eq_true.mp h) kv hmem)
  simpa [State.set] using hcur

theorem mem_of_alookup_some {α β : Type} [DecidableEq α] {k : α} {v : β}
    {l : List (α × β)} (hv : alookup k l = some v) : (k, v) ∈ l := by
  induction l with
  | nil => simp [alookup] at hv
  | cons hd t ih =>
    obtain ⟨k', v'⟩ := hd
    by_cases hk' : k' = k
    · subst hk'
      simp [alookup] at hv
      simp [hv]
    · simp [alookup, hk'] at hv
      simp [ih hv]

theorem hasKey_false_of_subset {s : State} {k : String}
    (hsub : s.initial.all (fun kv => hasKey kv.1 s.current) = true)
    (hk : hasKey k s.current = false) : hasKey k s.initial = false := by
  by_contra hcon
  simp only [Bool.not_eq_false] at hcon
  obtain ⟨v, hv⟩ : ∃ v, alookup k s.initial = some v := by
    cases hvv : alookup k s.initial with
    | none => rw [hasKey, hvv] at hcon; simp at hcon
    | some v => exact ⟨v, rfl⟩
  have hall := (List.all_eq_true.mp hsub) (k, v) (mem_of_alookup_some hv)
  simp [hk] at hall

/-- C10: reading an absent key through `State.__getitem__` materializes a
fresh empty mapping into both `initial` and `current`, so such a read
never changes the `changed` flag — in particular the final report's reads
of `"authenticated"`, `"assignments"`, `"deleted"` and `"info"` preserve
the flag computed from the mutations alone.  The key-subset hypothesis
(every key of `initial` is a key of `current`) holds of the initial state
and is preserved by every state operation, as the second and third
conjuncts show. -/
theorem getitem_absent_preserves_changed :
    (∀ (s : State) (k : String),
      s.initial.all (fun kv => hasKey kv.1 s.current) = true →
      hasKey k s.current = false →
      alookup k (s.getMat k).initial = some (.dict []) ∧
      alookup k (s.getMat k).current = some (.dict []) ∧
      (s.getMat k).changed = s.changed) ∧
    (∀ (s : State) (op : StateOp),
      s.initial.all (fun kv => hasKey kv.1 s.current) = true →
      (applyOp s op).initial.all (fun kv => hasKey kv.1 (applyOp s op).current) = true) ∧
    (∀ entries : List (String × Val),
      (State.init entries).initial.all
        (fun kv => hasKey kv.1 (State.init entries).current) = true) := by
  have keysSub_getMat : ∀ (s : State) (k : String),
      s.initial.all (fun kv => hasKey kv.1 s.current) = true →
      (s.getMat k).initial.all (fun kv => hasKey kv.1 (s.getMat k).current) = true := by
    intro s k h
    by_cases hk : hasKey k s.current = true
    · simpa [State.getMat, hk] using h
    · simp only [State.getMat]
      rw [if_neg hk]
      exact keysSub_set s k _ h
  refine ⟨?_, ?_, ?_⟩
  · intro s k hsub hk
    have hki : hasKey k s.initial = false := hasKey_false_of_subset hsub hk
    have hkc : alookup k s.current = none := alookup_none_of_hasKey_false hk
    have hii : alookup k s.initial = none := alookup_none_of_hasKey_false hki
    have hgm : s.getMat k =
        { initial := s.initial ++ [(k, .dict [])]
          current := s.current ++ [(k, .dict [])] } := by
      simp only [State.getMat]
      rw [if_neg (by simp [hk])]
      simp only [State.set]
      rw [if_neg (by simp [hki]), ainsert_of_hasKey_false _ hk]
    refine ⟨?_, ?_, ?_⟩
    · rw [hgm]
      show alookup k (s.initial ++ [(k, .dict [])]) = some (.dict [])
      rw [alookup_append_none hii]
      simp [alookup]
    · rw [hgm]
      show alookup k (s.current ++ [(k, .dict [])]) = some (.dict [])
      rw [alookup_append_none hkc]
      simp [alookup]
    · rw [hgm]
      show (!stateEq (s.current ++ [(k, .dict [])]) (s.initial ++ [(k, .dict [])])) =
        s.changed
      rw [stateEq_append_same _ hkc hii]
      rfl
  · intro s op h
    cases op with
    | set k v => exact keysSub_set s k v h
    | getMat k => exact keysSub_getMat s k h
    | curDictSet k key p =>
      have h' := keysSub_getMat s k h
      cases hv : alookup k (s.getMat k).current with
      | none => simpa [applyOp, State.curDictSet, hv] using h'
      | some v =>
        cases v with
        | prim q => simpa [applyOp, State.curDictSet, hv] using h'
        | dict d =>
          simp only [applyOp, State.curDictSet, hv]
          rw [List.all_eq_true]
          intro kv hkv
          exact hasKey_ainsert _ ((List.all_eq_true.mp h') kv hkv)
    | curDictPop k key =>
      have h' := keysSub_getMat s k h
      cases hv : alookup k (s.getMat k).current with
      | none => simpa [applyOp, State.curDictPop, hv] using h'
      | some v =>
        cases v with
        | prim q => simpa [applyOp, State.curDictPop, hv] using h'
        | dict d =>
          simp only [applyOp, State.curDictPop, hv]
          rw [List.all_eq_true]
          intro kv hkv
          exact hasKey_ainsert _ ((List.all_eq_true.mp h') kv hkv)
  · intro entries
    rw [List.all_eq_true]
    intro kv hkv
    exact hasKey_of_mem hkv

/-- C10 witness. -/
theorem getitem_absent_preserves_changed_witness :
    (State.init [("deleted", .prim (.pBool false))]).initial.all
      (fun kv => hasKey kv.1 (State.init [("deleted", .prim (.pBool false))]).current) = true ∧
    hasKey "info" (State.init [("deleted", .prim (.pBool false))]).current = false ∧
    ((State.init [("deleted", .prim (.pBool false))]).getMat "info").changed =
      (State.init [("deleted", .prim (.pBool false))]).changed :=
  ⟨by decide, by decide,
    (getitem_absent_preserves_changed.1 (State.init [("deleted", .prim (.pBool false))])
      "info" (by decide) (by decide)).2.2⟩

/-- No single state operation ever rewrites an existing `initial` entry:
`set` touches `initial` only for absent keys, materialization goes through
`set`, and the in-place `state_update` mutations touch only `current`
(their `initial` counterpart is a deep copy). -/
theorem initial_preserved_op (s : State) (op : StateOp) {k : String} {v : Val}
    (h : alookup k s.initial = some v) :
    alookup k (applyOp s op).initial = some v := by
  have hset : ∀ (k' : String) (v' : Val), alookup k (s.set k' v').initial = some v := by
    intro k' v'
    simp only [State.set]
    by_cases hik : hasKey k' s.initial = true
    · rw [if_pos hik]; exact h
    · rw [if_neg hik]; exact alookup_append_some h
  have hgm : ∀ k' : String, alookup k (s.getMat k').initial = some v := by
    intro k'
    simp only [State.getMat]
    by_cases hc : hasKey k' s.current = true
    · rw [if_pos hc]; exact h
    · rw [if_neg hc]; exact hset k' _
  cases op with
  | set k' v' => exact hset k' v'
  | getMat k' => exact hgm k'
  | curDictSet k' key p => exact hgm k'
  | curDictPop k' key => exact hgm k'

/-- C5: over any sequence of state operations performed during one run
(`set` calls, `__getitem__` materializations, and the in-place
`state_update` mutations of enable/disable/set_name/add_assignment/
remove_assignment), a key's `initial` entry equals the first value
recorded for it and is never mutated afterwards, while `current` is
freely overwritten; `changed` is true iff `current` differs structurally
from `initial` (Python dict comparison). -/
theorem state_initial_write_once :
    (∀ (s : State) (ops : List StateOp) (k : String) (v : Val),
      alookup k s.initial = some v →
      alookup k (applyOps s ops).initial = some v) ∧
    (∀ (s : State) (ops : List StateOp) (k : String) (v : Val),
      hasKey k s.initial = false →
      alookup k (applyOps s (.set k v :: ops)).initial = some v) ∧
    (∀ s : State, s.changed = !stateEq s.current s.initial) := by
  have hpres : ∀ (ops : List StateOp) (s : State) (k : String) (v : Val),
      alookup k s.initial = some v → alookup k (applyOps s ops).initial = some v := by
    intro ops
    induction ops with
    | nil => intro s k v h; exact h
    | cons op t ih =>
      intro s k v h
      exact ih _ k v (initial_preserved_op s op h)
  refine ⟨fun s ops => hpres ops s, ?_, fun s => rfl⟩
  intro s ops k v hk
  show alookup k (applyOps (applyOp s (.set k v)) ops).initial = some v
  apply hpres
  show alookup k (s.set k v).initial = some v
  simp only [State.set]
  rw [if_neg (by simp [hk]), alookup_append_none (alookup_none_of_hasKey_false hk)]
  simp [alookup]

/-- C5 witness. -/
theorem state_initial_write_once_witness :
    alookup "deleted" (State.init [("deleted", Val.prim (.pBool false))]).initial =
      some (.prim (.pBool false)) ∧
    alookup "deleted" (applyOps (State.init [("deleted", Val.prim (.pBool false))])
        [.curDictSet "info" (.ks "enabled") (.pBool true)]).initial =
      some (.prim (.pBool false)) :=
  ⟨by decide, state_initial_write_once.1 _ _ _ _ (by decide)⟩

/-! ### C2: aliasing semantics of `State.set` -/

/-- A heap with one dictionary object `{"x": 1}` at address 0. -/
def c2Heap : Heap := [(0, [(Key.ks "x", Prim.pNat 1)])]

/-- `set("k", value)` on an empty state, passing a reference to the
caller-owned object at address 0. -/
def c2Pair : HState × Heap := hset c2Heap ⟨[], []⟩ "k" (.href 0)

/-- The caller then mutates their own object: `value["x"] = 2`. -/
def c2Mutated : Heap := heapSet c2Pair.2 0 [(Key.ks "x", Prim.pNat 2)]

/-- C2 counterexample: `set` does NOT deep-copy the value into `current`
(`self.current[key] = value` stores the reference), so mutating the
object the caller passed in does alter the stored `current` snapshot —
refuting the claim at this concrete input. -/
theorem set_no_deepcopy_into_current :
    (alookup "k" c2Pair.1.current).map (deref c2Mutated) ≠
      (alookup "k" c2Pair.1.current).map (deref c2Pair.2) := by decide

/-- C2 amended: `set(key, value)` deep-copies `value` into `initial` when
the key is absent there, but stores `value` into `current` by reference:
after `set`,
(1) `current[key]` is the very object the caller passed;
(2) `initial[key]` dereferences to the content the value had at `set`
    time;
(3) that `initial` snapshot is immune to any later mutation of the
    caller's object (and hence to mutation of the value obtained via
    `get`, which is the same reference);
(4) such a mutation is visible through `current`. -/
theorem set_deepcopy_semantics (h : Heap) (s : HState) (k : String) (a : Addr)
    (c c' : Cell) (hk : hasKey k s.initial = false) (ha : alookup a h = some c) :
    alookup k (hset h s k (.href a)).1.current = some (.href a) ∧
    (alookup k (hset h s k (.href a)).1.initial).map (deref (hset h s k (.href a)).2) =
      some (.dict c) ∧
    (alookup k (hset h s k (.href a)).1.initial).map
      (deref (heapSet (hset h s k (.href a)).2 a c')) = some (.dict c) ∧
    (alookup k (hset h s k (.href a)).1.current).map
      (deref (heapSet (hset h s k (.href a)).2 a c')) = some (.dict c') := by
  have hne : a ≠ freshAddr h := by
    intro hc
    rw [hc, freshAddr_lookup_none h] at ha
    cases ha
  have hstep : hset h s k (.href a) =
      ({ initial := s.initial ++ [(k, .href (freshAddr h))]
         current := ainsert k (.href a) s.current },
       h ++ [(freshAddr h, c)]) := by
    simp only [hset]
    rw [if_neg (by simp [hk])]
    simp [deepcopyH, ha]
  rw [hstep]
  have hini : alookup k (s.initial ++ [(k, HVal.href (freshAddr h))]) =
      some (.href (freshAddr h)) := by
    rw [alookup_append_none (alookup_none_of_hasKey_false hk)]
    simp [alookup]
  have hfresh : alookup (freshAddr h) (h ++ [(freshAddr h, c)]) = some c := by
    rw [alookup_append_none (freshAddr_lookup_none h)]
    simp [alookup]
  have hina : alookup a (h ++ [(freshAddr h, c)]) = some c := alookup_append_some ha
  refine ⟨alookup_ainsert_self _ _ _, ?_, ?_, ?_⟩
  · rw [hini]
    simp [deref, hfresh]
  · rw [hini]
    simp [deref, heapSet_lookup_ne c' (Ne.symm hne), hfresh]
  · rw [alookup_ainsert_self]
    simp [deref, heapSet_lookup_self c' hina]

/-- C2 amended witness. -/
theorem set_deepcopy_semantics_witness :
    hasKey "k" (⟨[], []⟩ : HState).initial = false ∧
    alookup 0 c2Heap = some [(Key.ks "x", Prim.pNat 1)] ∧
    (alookup "k" (hset c2Heap ⟨[], []⟩ "k" (.href 0)).1.initial).map
      (deref (heapSet (hset c2Heap ⟨[], []⟩ "k" (.href 0)).2 0 [(Key.ks "x", Prim.pNat 2)])) =
      some (.dict [(Key.ks "x", Prim.pNat 1)]) :=
  ⟨by decide, by decide,
    (set_deepcopy_semantics c2Heap ⟨[], []⟩ "k" 0 [(Key.ks "x", Prim.pNat 1)]
      [(Key.ks "x", Prim.pNat 2)] (by decide) (by decide)).2.2.1⟩

/-! ### C1: assignment diffing -/

def c1Fs : Fs := ⟨some "<id>7</id><agentUuid>aa-1</agentUuid>", none⟩

def c1Agent : Agent := Agent.init c1Fs false

/-- Server with no observed assignments. -/
def c1ServerEmpty : Server := ⟨[], [⟨7, "n", true, false⟩], []⟩

/-- Server observing assignments `{1: "PROJECT", 2: "PLAN"}`. -/
def c1ServerFull : Server := ⟨[], [⟨7, "n", true, false⟩], [(1, "PROJECT"), (2, "PLAN")]⟩

/-- C1: the code does NOT issue one `addAssignment` per desired-only
entry.  `update_assignments` drives the two generator expressions with
`all(...)`; `add_assignment`/`remove_assignment` return `None`, which is
falsy, so `all` stops consuming the generator after its first element.
Against observed `{}` with desired `{1: "PROJECT", 2: "PLAN"}` exactly
one add request is issued (the unit test `test_add_assignments` expects
two; it passes only because its mock returns truthy `Mock` objects), and
symmetrically only the first stale removal is issued. -/
theorem update_assignments_short_circuit :
    (Ctl.updateAssignmentsPhase (some [(1, "PROJECT"), (2, "PLAN")])
        c1Agent c1ServerEmpty).trace =
      [Req.getAssignments (some 7), Req.postAddAssignment "PROJECT" 1] ∧
    (Ctl.updateAssignmentsPhase (some []) c1Agent c1ServerFull).trace =
      [Req.getAssignments (some 7), Req.deleteRemoveAssignment "PROJECT" 1] := by
  decide

/-! ### C4: idempotent run issues no mutating request -/

/-- `authenticate` phase when the agent is in fact already authenticated:
uuid present and not pending, id present and listed — two GETs, the state
records `info` and `authenticated=True`, no mutation. -/
theorem authenticatePhase_already (a : Agent) (srv : Server) (u : String)
    (aid : Nat) (i : AgentInfo)
    (hu : uuidR a.fs = .ok (some u)) (hp' : u ∉ srv.pending)
    (hid : idOf a.fs = some aid)
    (hfind : srv.agents.find? (fun ag => ag.id = aid) = some i) :
    Ctl.authenticatePhase a srv = .ok
      { a with
        trace := (a.trace ++ [.getPending]) ++ [.getAgents]
        state := (a.state.set "info" (infoVal (some i))).set "authenticated"
          (.prim (.pBool true))
        infoCache := some (some i) } := by
  simp [Ctl.authenticatePhase, Agent.authenticatedM, Agent.availableM, Agent.infoM,
    Bind.bind, Except.bind, hu, hp', hid, hfind]

/-- `set_enabled` phase when the desired flag equals the observed one
(info cache warm): one read, no mutation, agent unchanged. -/
theorem setEnabledPhase_noop (a : Agent) (srv : Server) (i : AgentInfo)
    (hc : a.infoCache = some (some i)) :
    Ctl.setEnabledPhase (some i.enabled) a srv = .ok a := by
  simp [Ctl.setEnabledPhase, Agent.enabledM, Agent.infoM, Bind.bind, Except.bind, hc]

/-- `set_name` phase when the desired name equals the observed one. -/
theorem setNamePhase_noop (a : Agent) (srv : Server) (i : AgentInfo)
    (hc : a.infoCache = some (some i)) :
    Ctl.setNamePhase (some i.name) a srv = .ok a := by
  simp [Ctl.setNamePhase, Agent.nameM, Agent.infoM, Bind.bind, Except.bind, hc]

/-- `update_assignments` phase when the resolved desired map equals the
observed one: one GET, the state records the observed map, no mutation. -/
theorem updateAssignmentsPhase_noop (a : Agent) (srv : Server)
    (want : List (Nat × String)) (hcache : a.assignCache = none)
    (heq : natDictEq srv.assignmentsResp want = true) :
    Ctl.updateAssignmentsPhase (some want) a srv =
      { a with
        trace := a.trace ++ [.getAssignments (idOf a.fs)]
        state := a.state.set "assignments" (assignVal srv.assignmentsResp)
        assignCache := some srv.assignmentsResp } := by
  simp [Ctl.updateAssignmentsPhase, Agent.assignmentsM, hcache, heq]

/-- C4: running the controller's full phase sequence (authenticate,
set_enabled, set_name, update_assignments; block_while_busy and delete
not requested) against a server whose observed state already equals the
desired state — already authenticated, enabled flag matches, name
matches, resolved assignment map equals the observed map — issues no
mutating HTTP request (only GETs) and yields `state.changed = false`. -/
theorem idempotent_run_no_mutation
    (fs : Fs) (srv : Server) (u : String) (aid : Nat) (i : AgentInfo)
    (want : List (Nat × String))
    (hu : uuidR fs = .ok (some u))
    (hp : srv.pending.contains u = false)
    (hid : idOf fs = some aid)
    (hfind : srv.agents.find? (fun ag => ag.id = aid) = some i)
    (hassign : natDictEq srv.assignmentsResp want = true) :
    ∃ a', Ctl.runController (some i.enabled) (some i.name) (some want) false false
        (Agent.init fs false) srv = .ok a' ∧
      a'.trace.all (fun r => !r.isMutating) = true ∧
      a'.state.changed = false := by
  have hp' : u ∉ srv.pending := by simpa using hp
  have h1 := authenticatePhase_already (Agent.init fs false) srv u aid i hu hp' hid
    hfind
  simp only [Ctl.runController, Bind.bind]
  rw [h1]
  simp only [Except.bind]
  rw [setEnabledPhase_noop _ srv i rfl]
  simp only [Except.bind]
  rw [setNamePhase_noop _ srv i rfl]
  simp only [Except.bind]
  rw [updateAssignmentsPhase_noop _ srv want rfl hassign]
  simp only [Ctl.blockPhase, Bool.false_eq_true, if_false, Except.bind]
  refine ⟨_, rfl, ?_, ?_⟩
  · simp [Agent.init, Req.isMutating]
  · simp [Agent.init, State.init, State.set, State.changed, hasKey, alookup, ainsert,
      stateEq_refl]

/-- C4 witness. -/
theorem idempotent_run_no_mutation_witness :
    uuidR c1Fs = .ok (some "aa-1") ∧
    natDictEq c1ServerFull.assignmentsResp [(2, "PLAN"), (1, "PROJECT")] = true ∧
    ∃ a', Ctl.runController (some true) (some "n") (some [(2, "PLAN"), (1, "PROJECT")])
        false false (Agent.init c1Fs false) c1ServerFull = .ok a' ∧
      a'.trace.all (fun r => !r.isMutating) = true ∧
      a'.state.changed = false := by
  refine ⟨by decide, by decide, ?_⟩
  have h := idempotent_run_no_mutation c1Fs c1ServerFull "aa-1" 7 ⟨7, "n", true, false⟩
    [(2, "PLAN"), (1, "PROJECT")] (by decide) (by decide) (by decide) (by decide)
    (by decide)
  exact h

end BambooSpec
